import Mathlib

/-!
Shallow embedding of the registry CLI scripts of this repository:

* `registry_crane_curl.go` (src/unnamed/part_000): the orchestration script —
  catalog listing via HTTP GET, per-repository tag listing, optional digest
  resolution via HTTP HEAD, manifest delete, and garbage collection via a
  `docker exec` subprocess.
* `delete_resolve_remote.go` (src/go-crane-push/delete_image.go): resolve a
  digest with remote.Head and delete the manifest by digest with crane.Delete.
* `pull_and_save.go` (src/go-creane-pull-save/pull_and_save.go): pull an image
  and save it as a tarball.

The external registry-client library and the HTTP transport are abstracted
into environment records: each network or subprocess call is a field holding
the result the external world would return (`Except String α` for calls with
results, `Option String` for calls that only report an error). Response bodies
are modelled as strings of characters standing for bytes. Each script main is
a pure function from its flags and environment to the list of external
actions it performs plus the final outcome.
-/

/-- Outcome of a script run: `log.Fatalf` terminates the process with a
nonzero exit code carrying the message; otherwise the script runs to
completion and exits 0. -/
inductive Outcome where
  | fatal (msg : String) : Outcome
  | success : Outcome
deriving DecidableEq

/-- An HTTP response as the scripts consume it: status code, headers, body.
Bytes of the body are modelled as characters. -/
structure HttpResponse where
  status : Nat
  headers : List (String × String)
  body : String
deriving DecidableEq

/-- `resp.Header.Get key`: first value of the header, or the empty string
when the header is absent. -/
def headerGet (hs : List (String × String)) (key : String) : String :=
  match hs.find? (fun p => p.1 == key) with
  | some p => p.2
  | none => ""

/-- `io.ReadAll(io.LimitReader(resp.Body, 2048))`: at most 2048 bytes of the
body. -/
def take2048 (s : String) : String :=
  String.mk (s.data.take 2048)

/-- Whether a character list starts with the pattern. -/
def startsWithList : List Char → List Char → Bool
  | [], _ => true
  | _ :: _, [] => false
  | p :: ps, c :: cs => p == c && startsWithList ps cs

/-- Whether a nonempty pattern occurs inside a character list. -/
def containsList (pat : List Char) : List Char → Bool
  | [] => false
  | c :: rest => startsWithList pat (c :: rest) || containsList pat rest

/-- `strings.Contains(s, pat)`. -/
def containsSubstr (s pat : String) : Bool :=
  if pat.data = [] then true else containsList pat.data s.data

deriving instance DecidableEq for Except

/-- Whether an external call failed. -/
def isErr {α : Type} (x : Except String α) : Bool :=
  match x with
  | Except.error _ => true
  | Except.ok _ => false

/-! ## registry_crane_curl.go (src/unnamed/part_000) -/

/-- The catalog response shape: `{"repositories": [...]}`. -/
structure catalogResponse where
  repositories : List String
deriving DecidableEq

/-- `fetchCatalog`: GET `/v2/_catalog`. `get` is the outcome of
`client.Get(url)`; `decode` is what `json.NewDecoder(resp.Body).Decode`
returns on the response body. A non-200 status yields an error carrying the
status and at most 2048 bytes of the body; a decode failure yields the decode
error. -/
def fetchCatalog (get : Except String HttpResponse)
    (decode : String → Except String catalogResponse) :
    Except String catalogResponse :=
  match get with
  | Except.error e => Except.error e
  | Except.ok resp =>
    if resp.status ≠ 200 then
      Except.error ("catalog returned status " ++ toString resp.status ++ ": "
        ++ take2048 resp.body)
    else
      match decode resp.body with
      | Except.error e => Except.error e
      | Except.ok c => Except.ok c

/-- The four return values of `resolveDigestHTTP`:
`(digest string, status int, body string, err error)`, with the Go `error`
modelled as `Option String`. -/
structure ResolveOut where
  digest : String
  status : Nat
  body : String
  error : Option String
deriving DecidableEq

/-- `resolveDigestHTTP`: HEAD `/v2/<repo>/manifests/<tag>`. `doResp` is the
outcome of `client.Do(req)` (an `error` for request-building or transport
failures). On a status below 400 the digest is read from the
Docker-Content-Digest header, falling back to Content-Digest, and an error is
returned when both are empty; a status of 400 or above returns an error
carrying the status, with at most 2048 bytes of the body in the body slot. -/
def resolveDigestHTTP (doResp : Except String HttpResponse) : ResolveOut :=
  match doResp with
  | Except.error e => ⟨"", 0, "", some e⟩
  | Except.ok resp =>
    let bs := take2048 resp.body
    if 400 ≤ resp.status then
      ⟨"", resp.status, bs,
        some ("manifest HEAD returned status " ++ toString resp.status)⟩
    else
      let d := headerGet resp.headers "Docker-Content-Digest"
      let d := if d = "" then headerGet resp.headers "Content-Digest" else d
      if d = "" then
        ⟨"", resp.status, bs, some "digest header not found"⟩
      else
        ⟨d, resp.status, bs, none⟩

/-- `runGarbageCollect`: the argv of the command the function executes with
`exec.Command` and `cmd.Run`. The Go source builds
`docker exec 5a77465126df /bin/registry garbage-collect --delete-untagged
/etc/docker/registry/config.yml`, with the container identifier written as a
literal; the `container` parameter is accepted but never used. -/
def runGarbageCollect (container : String) : List String :=
  ["docker", "exec", "5a77465126df", "/bin/registry", "garbage-collect",
   "--delete-untagged", "/etc/docker/registry/config.yml"]

/-- The guidance messages of the orchestration script when `crane.Delete`
fails: substring matches against UNSUPPORTED and DIGEST_INVALID pick a more
actionable message; every branch feeds `log.Fatalf`. -/
def deleteErrGuidanceOrch (e : String) : String :=
  if containsSubstr e "UNSUPPORTED" then
    "crane.Delete returned UNSUPPORTED: deletes likely disabled on registry. Enable with REGISTRY_STORAGE_DELETE_ENABLED=true or storage.delete.enabled: true in config.yml. Error: " ++ e
  else if containsSubstr e "DIGEST_INVALID" then
    "crane.Delete returned DIGEST_INVALID: server rejected digest. Ensure HEAD used proper Accept header and the digest matches servers manifest. Error: " ++ e
  else
    "crane.Delete failed: " ++ e

/-- The flags of the orchestration script, with the defaults of `flag.String`
/ `flag.Bool` / `flag.Int`. -/
structure Flags where
  registry : String
  repo : String
  tag : String
  doDelete : Bool
  doGC : Bool
  container : String
  timeoutSec : Nat
deriving DecidableEq

/-- The flag defaults of the orchestration script. -/
def defaultFlags : Flags :=
  ⟨"localhost:5000", "", "latest", false, false, "local-registry", 10⟩

/-- The external world of the orchestration script: the result of each
network or subprocess call it may perform. `parseRepo` and `listTags` are
keyed by repository name (the script applies them to `base ++ "/" ++ r`). -/
structure OrchEnv where
  catalogGet : Except String HttpResponse
  decodeCatalog : String → Except String catalogResponse
  parseRepo : String → Except String Unit
  listTags : String → Except String (List String)
  headResp : Except String HttpResponse
  deleteResult : Option String
  gcResult : Option String

/-- One step of the orchestration script, in the order the script performs
them. The catalog and HEAD steps record the HTTP timeout, in seconds, that
the script passes to the HTTP client. The per-repository steps record how the
tag-listing loop handled the repository: parse failure, remote.List failure
(both printed, loop continues), or a successful listing. -/
inductive Step where
  | catalog (timeoutSec : Nat) : Step
  | parseRepoFail (repo : String) : Step
  | listTagsFail (repo : String) : Step
  | listTagsOk (repo : String) : Step
  | resolveHead (timeoutSec : Nat) : Step
  | deleteManifest : Step
  | gc : Step
deriving DecidableEq

/-- The step the tag-listing loop records for one repository: on a
`name.NewRepository` error or a `remote.List` error it prints the error and
continues with the next repository. -/
def tagStepFor (env : OrchEnv) (r : String) : Step :=
  match env.parseRepo r with
  | Except.error _ => Step.parseRepoFail r
  | Except.ok _ =>
    match env.listTags r with
    | Except.error _ => Step.listTagsFail r
    | Except.ok _ => Step.listTagsOk r

/-- The trace of the tag-listing loop over the catalog. -/
def phase2Trace (repos : List String) (env : OrchEnv) : List Step :=
  repos.map (tagStepFor env)

/-- Steps 3-5 of the orchestration script, reached only with `-delete` set
and a repository given: HEAD digest resolution, `crane.Delete`, and — when
`-gc` is set and the delete succeeded — garbage collection. -/
def deletePhase (f : Flags) (env : OrchEnv) : List Step × Outcome :=
  let r := resolveDigestHTTP env.headResp
  match r.error with
  | some e =>
    ([Step.resolveHead f.timeoutSec],
      Outcome.fatal ("resolveDigestHTTP failed (status " ++ toString r.status
        ++ "): " ++ e ++ "\nbody: " ++ r.body))
  | none =>
    match env.deleteResult with
    | some e =>
      ([Step.resolveHead f.timeoutSec, Step.deleteManifest],
        Outcome.fatal (deleteErrGuidanceOrch e))
    | none =>
      if f.doGC then
        match env.gcResult with
        | some e =>
          ([Step.resolveHead f.timeoutSec, Step.deleteManifest, Step.gc],
            Outcome.fatal ("runGarbageCollect failed: " ++ e))
        | none =>
          ([Step.resolveHead f.timeoutSec, Step.deleteManifest, Step.gc],
            Outcome.success)
      else
        ([Step.resolveHead f.timeoutSec, Step.deleteManifest],
          Outcome.success)

/-- The main of the orchestration script: fetch the catalog (fatal on
failure), run the tag-listing loop, return early when `-delete` is not set,
fatal when `-repo` is missing, and otherwise run the delete phase. -/
def mainOrch (f : Flags) (env : OrchEnv) : List Step × Outcome :=
  match fetchCatalog env.catalogGet env.decodeCatalog with
  | Except.error e =>
    ([Step.catalog f.timeoutSec], Outcome.fatal ("fetchCatalog failed: " ++ e))
  | Except.ok c =>
    let pre := Step.catalog f.timeoutSec :: phase2Trace c.repositories env
    if f.doDelete = false then (pre, Outcome.success)
    else if f.repo = "" then
      (pre, Outcome.fatal "please provide -repo when using -delete")
    else
      (pre ++ (deletePhase f env).1, (deletePhase f env).2)

/-- The repository list the orchestration script iterates over: the decoded
catalog, or nothing when the catalog fetch failed. -/
def orchRepos (env : OrchEnv) : List String :=
  match fetchCatalog env.catalogGet env.decodeCatalog with
  | Except.ok c => c.repositories
  | Except.error _ => []

/-! ## delete_resolve_remote.go (src/go-crane-push/delete_image.go) -/

/-- A parsed tag reference as the delete script uses it: `Context().Name()`
(registry and repository, without the tag) and the tag. -/
structure TagRef where
  contextName : String
  tag : String
deriving DecidableEq

/-- Tag splitting of the reference parser the script calls
(`name.ParseReference` of the external library, for tag-shaped references):
the chunk after the last colon is the tag when it holds no slash; otherwise
the whole string is the repository and there is no tag. -/
def parseTagRef (s : String) : TagRef :=
  let r := s.data.reverse
  let afterRev := r.takeWhile (fun c => !(c == ':'))
  if afterRev.length = r.length then ⟨s, ""⟩
  else
    let tag := afterRev.reverse
    if tag.contains '/' then ⟨s, ""⟩
    else ⟨String.mk ((r.drop (afterRev.length + 1)).reverse), String.mk tag⟩

/-- The guidance message of the delete script when `remote.Head` fails:
substring matches against MANIFEST_UNKNOWN and 404 pick a more actionable
message; both branches feed `log.Fatalf`. -/
def headErrGuidance (refStr e : String) : String :=
  if containsSubstr e "MANIFEST_UNKNOWN" || containsSubstr e "404" then
    "manifest not found for " ++ refStr ++ ": " ++ e
      ++ "\nMake sure the tag exists (docker push localhost:5000/<repo>:<tag>)"
  else
    "remote.Head failed: " ++ e

/-- The guidance message of the delete script when `crane.Delete` fails: an
UNSUPPORTED substring match picks a more actionable message; both branches
feed `log.Fatalf`. -/
def deleteErrGuidanceScript (e : String) : String :=
  if containsSubstr e "UNSUPPORTED" then
    "crane.Delete failed: " ++ e
      ++ "\nRegistry likely has deletes disabled. Recreate registry with REGISTRY_STORAGE_DELETE_ENABLED=true or add storage.delete.enabled: true in config.yml"
  else
    "crane.Delete failed: " ++ e

/-- One external action of the delete script. `remoteHead` records the
timeout, in seconds, of the context passed to `remote.Head`. `printTags`
records whether the listing failed (the script prints a warning and
continues). `craneDelete` records the reference handed to `crane.Delete`. -/
inductive DAction where
  | parseReference (s : String) : DAction
  | remoteHead (timeoutSec : Nat) : DAction
  | printTags (warned : Bool) : DAction
  | craneDelete (ref : String) : DAction
deriving DecidableEq

/-- The external world of the delete script. -/
structure DeleteEnv where
  parseErr : Option String
  headResult : Except String String
  listBefore : Except String (List String)
  deleteResult : Option String
  listAfter : Except String (List String)
deriving DecidableEq

/-- The main of the delete script: parse the reference, resolve the digest
with `remote.Head` under a fixed 10-second context timeout, print the tags
(a failure is only a warning), delete `repository@digest` with
`crane.Delete`, and print the tags again. -/
def deleteMain (refStr : String) (env : DeleteEnv) : List DAction × Outcome :=
  match env.parseErr with
  | some e =>
    ([DAction.parseReference refStr],
      Outcome.fatal ("parsing reference " ++ refStr ++ ": " ++ e))
  | none =>
    let ref := parseTagRef refStr
    let acts := [DAction.parseReference refStr, DAction.remoteHead 10]
    match env.headResult with
    | Except.error e => (acts, Outcome.fatal (headErrGuidance refStr e))
    | Except.ok digest =>
      if digest = "" then
        (acts, Outcome.fatal ("no digest found in descriptor for " ++ refStr))
      else
        let acts := acts ++ [DAction.printTags (isErr env.listBefore)]
        let delRef := ref.contextName ++ "@" ++ digest
        let acts := acts ++ [DAction.craneDelete delRef]
        match env.deleteResult with
        | some e => (acts, Outcome.fatal (deleteErrGuidanceScript e))
        | none =>
          (acts ++ [DAction.printTags (isErr env.listAfter)], Outcome.success)

/-! ## pull_and_save.go (src/go-creane-pull-save/pull_and_save.go) -/

/-- `filepath.Base` on a Unix path, as the Go standard library computes it:
empty path gives ".", trailing slashes are stripped, the last element is
returned, and a path of only slashes gives "/". -/
def filepathBase (p : String) : String :=
  if p = "" then "."
  else
    let stripped := (p.data.reverse.dropWhile (fun c => c = '/')).reverse
    if stripped = [] then "/"
    else String.mk ((stripped.reverse.takeWhile (fun c => c ≠ '/')).reverse)

/-- A `crane.Option` as the pull script assembles them. -/
inductive CraneOpt where
  | insecureOpt : CraneOpt
  | withContextTimeout (seconds : Nat) : CraneOpt
deriving DecidableEq

/-- The option list the pull script builds: `crane.Insecure` when the
`--insecure` flag is set, then always `crane.WithContextTimeout(10*time.Minute)`. -/
def pullOpts (insecure : Bool) : List CraneOpt :=
  (if insecure then [CraneOpt.insecureOpt] else [])
    ++ [CraneOpt.withContextTimeout (10 * 60)]

/-- The flags of the pull script, with their defaults
`⟨"localhost:5000", "", "latest", "", true⟩`. -/
structure PullFlags where
  registry : String
  repo : String
  tag : String
  out : String
  insecure : Bool
deriving DecidableEq

/-- The external world of the pull script. -/
structure PullEnv where
  mkdirErr : Option String
  pullErr : Option String
  saveErr : Option String
deriving DecidableEq

/-- One external action of the pull script. -/
inductive PAction where
  | mkdirAll (folder : String) : PAction
  | cranePull (ref : String) (opts : List CraneOpt) : PAction
  | craneSave (ref : String) (path : String) : PAction
  | logSaved (path : String) : PAction
deriving DecidableEq

/-- The default output path when `--out` is empty:
`filepath.Join("downloaded-images", fmt.Sprintf("%s_%s.tar",
filepath.Base(*repo), *tag))`. -/
def defaultOut (repo tag : String) : String :=
  "downloaded-images/" ++ filepathBase repo ++ "_" ++ tag ++ ".tar"

/-- Pull then save then log, shared by both output-path branches of the pull
script. -/
def pullSavePhase (f : PullFlags) (out : String) (acts : List PAction)
    (env : PullEnv) : List PAction × Outcome :=
  let refStr := f.registry ++ "/" ++ f.repo ++ ":" ++ f.tag
  let acts := acts ++ [PAction.cranePull refStr (pullOpts f.insecure)]
  match env.pullErr with
  | some e => (acts, Outcome.fatal ("crane.Pull failed: " ++ e))
  | none =>
    let acts := acts ++ [PAction.craneSave refStr out]
    match env.saveErr with
    | some e => (acts, Outcome.fatal ("crane.Save failed: " ++ e))
    | none => (acts ++ [PAction.logSaved out], Outcome.success)

/-- The main of the pull script: `--repo` is required; with `--out` empty the
`downloaded-images` folder is created (fatal on failure) and the default
output path is used; then pull, save, and log the saved path. -/
def pullSaveMain (f : PullFlags) (env : PullEnv) : List PAction × Outcome :=
  if f.repo = "" then
    ([], Outcome.fatal "please provide --repo (e.g. --repo golang)")
  else if f.out = "" then
    match env.mkdirErr with
    | some e =>
      ([PAction.mkdirAll "downloaded-images"],
        Outcome.fatal ("failed to create output folder: " ++ e))
    | none =>
      pullSavePhase f (defaultOut f.repo f.tag)
        [PAction.mkdirAll "downloaded-images"] env
  else
    pullSavePhase f f.out [] env

/-! ## Helper lemmas -/

lemma take2048_length (s : String) : (take2048 s).length ≤ 2048 := by
  have h : (take2048 s).length = (s.data.take 2048).length := rfl
  rw [h, List.length_take]
  exact min_le_left _ _

lemma tagStepFor_cases (env : OrchEnv) (r : String) :
    tagStepFor env r = Step.parseRepoFail r ∨ tagStepFor env r = Step.listTagsFail r ∨
      tagStepFor env r = Step.listTagsOk r := by
  unfold tagStepFor
  cases env.parseRepo r with
  | error e => exact Or.inl rfl
  | ok u =>
    cases env.listTags r with
    | error e => exact Or.inr (Or.inl rfl)
    | ok t => exact Or.inr (Or.inr rfl)

lemma notMem_phase2_resolveHead (repos : List String) (env : OrchEnv) (t : Nat) :
    Step.resolveHead t ∉ phase2Trace repos env := by
  intro h
  rw [phase2Trace, List.mem_map] at h
  obtain ⟨r, _, hs⟩ := h
  rcases tagStepFor_cases env r with h1 | h1 | h1 <;> rw [h1] at hs <;> simp at hs

lemma notMem_phase2_deleteManifest (repos : List String) (env : OrchEnv) :
    Step.deleteManifest ∉ phase2Trace repos env := by
  intro h
  rw [phase2Trace, List.mem_map] at h
  obtain ⟨r, _, hs⟩ := h
  rcases tagStepFor_cases env r with h1 | h1 | h1 <;> rw [h1] at hs <;> simp at hs

lemma notMem_phase2_gc (repos : List String) (env : OrchEnv) :
    Step.gc ∉ phase2Trace repos env := by
  intro h
  rw [phase2Trace, List.mem_map] at h
  obtain ⟨r, _, hs⟩ := h
  rcases tagStepFor_cases env r with h1 | h1 | h1 <;> rw [h1] at hs <;> simp at hs

/-! ## Claim theorems -/

/-- Claim C1. The claim says the garbage-collection step runs
`docker exec CONTAINER /bin/registry garbage-collect --delete-untagged
/etc/docker/registry/config.yml` with CONTAINER the value of the
`-container` flag (default "local-registry"). The code instead hardcodes the
container identifier 5a77465126df and ignores the flag value, against the
flag help text and the doc comment of `runGarbageCollect` itself: with the
default flag value the argv holds 5a77465126df and never the flag value, and
the argv is the same for every container argument. -/
theorem c1_runGarbageCollect_ignores_container_flag :
  runGarbageCollect defaultFlags.container =
    ["docker", "exec", "5a77465126df", "/bin/registry", "garbage-collect",
     "--delete-untagged", "/etc/docker/registry/config.yml"] ∧
  defaultFlags.container ∉ runGarbageCollect defaultFlags.container ∧
  ∀ c : String, runGarbageCollect c = runGarbageCollect defaultFlags.container :=
  ⟨rfl, by decide, fun c => rfl⟩

/-- Claim C9. In `resolveDigestHTTP`, for every response with status below
400 the digest is taken from the Docker-Content-Digest header, falling back
to Content-Digest, and an error is returned iff both headers are empty;
every status of 400 or above returns an error carrying the status, with at
most 2048 bytes of the response body. -/
theorem c9_resolveDigestHTTP_behavior : ∀ resp : HttpResponse,
  (resp.status < 400 →
    ((resolveDigestHTTP (Except.ok resp)).error = none ↔
      ¬(headerGet resp.headers "Docker-Content-Digest" = "" ∧
        headerGet resp.headers "Content-Digest" = ""))) ∧
  (resp.status < 400 → headerGet resp.headers "Docker-Content-Digest" ≠ "" →
    (resolveDigestHTTP (Except.ok resp)).digest =
      headerGet resp.headers "Docker-Content-Digest") ∧
  (resp.status < 400 → headerGet resp.headers "Docker-Content-Digest" = "" →
    headerGet resp.headers "Content-Digest" ≠ "" →
    (resolveDigestHTTP (Except.ok resp)).digest =
      headerGet resp.headers "Content-Digest") ∧
  (400 ≤ resp.status →
    resolveDigestHTTP (Except.ok resp) =
      ⟨"", resp.status, take2048 resp.body,
        some ("manifest HEAD returned status " ++ toString resp.status)⟩ ∧
    (take2048 resp.body).length ≤ 2048) := by
  intro resp
  refine ⟨?_, ?_, ?_, ?_⟩
  · intro hlt
    have h4 : ¬ 400 ≤ resp.status := by omega
    by_cases hd : headerGet resp.headers "Docker-Content-Digest" = ""
    · by_cases hc : headerGet resp.headers "Content-Digest" = ""
      · simp [resolveDigestHTTP, h4, hd, hc]
      · simp [resolveDigestHTTP, h4, hd, hc]
    · simp [resolveDigestHTTP, h4, hd]
  · intro hlt hd
    have h4 : ¬ 400 ≤ resp.status := by omega
    simp [resolveDigestHTTP, h4, hd]
  · intro hlt hd hc
    have h4 : ¬ 400 ≤ resp.status := by omega
    simp [resolveDigestHTTP, h4, hd, hc]
  · intro h4
    exact ⟨by simp [resolveDigestHTTP, h4], take2048_length _⟩

/-- Witness for C9: a 200 response carrying a Docker-Content-Digest header
resolves to that digest. -/
theorem c9_witness :
  (resolveDigestHTTP (Except.ok ⟨200, [("Docker-Content-Digest", "sha256:x")], "bb"⟩)).digest
    = "sha256:x" := by
  have h := (c9_resolveDigestHTTP_behavior
    ⟨200, [("Docker-Content-Digest", "sha256:x")], "bb"⟩).2.1 (by decide) (by decide)
  rw [show headerGet [("Docker-Content-Digest", "sha256:x")] "Docker-Content-Digest"
    = "sha256:x" from by decide] at h
  exact h

/-- Claim C10. `fetchCatalog` returns the decoded repository list iff the
GET returns status exactly 200 and the body decodes; any other status yields
an error containing the status code and at most 2048 bytes of the body, and
a decode failure yields the decode error. -/
theorem c10_fetchCatalog_behavior :
  ∀ (decode : String → Except String catalogResponse) (resp : HttpResponse),
  (∀ c : catalogResponse,
    fetchCatalog (Except.ok resp) decode = Except.ok c ↔
      (resp.status = 200 ∧ decode resp.body = Except.ok c)) ∧
  (resp.status ≠ 200 →
    fetchCatalog (Except.ok resp) decode =
      Except.error ("catalog returned status " ++ toString resp.status ++ ": "
        ++ take2048 resp.body) ∧
    (take2048 resp.body).length ≤ 2048) ∧
  (∀ e, resp.status = 200 → decode resp.body = Except.error e →
    fetchCatalog (Except.ok resp) decode = Except.error e) := by
  intro decode resp
  by_cases h : resp.status = 200
  · refine ⟨?_, ?_, ?_⟩
    · intro c
      cases hdec : decode resp.body with
      | error e => simp [fetchCatalog, h, hdec]
      | ok c2 => simp [fetchCatalog, h, hdec]
    · intro hne; exact absurd h hne
    · intro e _ hdec; simp [fetchCatalog, h, hdec]
  · refine ⟨?_, ?_, ?_⟩
    · intro c; simp [fetchCatalog, h]
    · intro _; exact ⟨by simp [fetchCatalog, h], take2048_length _⟩
    · intro e h200 _; exact absurd h200 h

/-- Witness for C10: a 200 response whose body decodes returns the decoded
list. -/
theorem c10_witness :
  fetchCatalog (Except.ok ⟨200, [], "x"⟩) (fun _ => Except.ok ⟨["golang"]⟩)
    = Except.ok ⟨["golang"]⟩ :=
  ((c10_fetchCatalog_behavior (fun _ => Except.ok ⟨["golang"]⟩) ⟨200, [], "x"⟩).1
    ⟨["golang"]⟩).mpr ⟨rfl, rfl⟩

/-- Claim C5. When `remote.Head` or `crane.Delete` fails, the scripts pick
the fatal message by substring matches — MANIFEST_UNKNOWN or 404 for
`remote.Head` in the delete script, UNSUPPORTED for `crane.Delete` in the
delete script, UNSUPPORTED and DIGEST_INVALID for `crane.Delete` in the
orchestration script — and in every such branch, matched or not, the outcome
is a fatal termination. -/
theorem c5_error_substring_guidance :
  (∀ (s : String) (env : DeleteEnv) (e : String), env.parseErr = none →
    env.headResult = Except.error e →
    (deleteMain s env).2 = Outcome.fatal (headErrGuidance s e)) ∧
  (∀ (s : String) (env : DeleteEnv) (d e : String), env.parseErr = none →
    env.headResult = Except.ok d → d ≠ "" → env.deleteResult = some e →
    (deleteMain s env).2 = Outcome.fatal (deleteErrGuidanceScript e)) ∧
  (∀ (f : Flags) (env : OrchEnv) (c : catalogResponse) (e : String),
    fetchCatalog env.catalogGet env.decodeCatalog = Except.ok c →
    f.doDelete = true → f.repo ≠ "" →
    (resolveDigestHTTP env.headResp).error = none → env.deleteResult = some e →
    (mainOrch f env).2 = Outcome.fatal (deleteErrGuidanceOrch e)) := by
  refine ⟨?_, ?_, ?_⟩
  · intro s env e hp hh
    simp [deleteMain, hp, hh]
  · intro s env d e hp hh hd hdel
    simp [deleteMain, hp, hh, hd, hdel]
  · intro f env c e hcat hdel hrepo hre hdc
    simp [mainOrch, hcat, hdel, hrepo, deletePhase, hre, hdc]

/-- Witness for C5: a failing `remote.Head` whose error mentions
MANIFEST_UNKNOWN ends in the fatal guidance message. -/
theorem c5_witness :
  (deleteMain "localhost:5000/mybusybox:latest"
      ⟨none, Except.error "registry said MANIFEST_UNKNOWN", Except.ok [], none, Except.ok []⟩).2
    = Outcome.fatal (headErrGuidance "localhost:5000/mybusybox:latest"
        "registry said MANIFEST_UNKNOWN") :=
  c5_error_substring_guidance.1 "localhost:5000/mybusybox:latest"
    ⟨none, Except.error "registry said MANIFEST_UNKNOWN", Except.ok [], none, Except.ok []⟩
    "registry said MANIFEST_UNKNOWN" rfl rfl

/-- Claim C8. The delete script deletes by digest: whenever the delete is
reached, the reference handed to `crane.Delete` is the repository part of
the parsed input reference, then "@", then the digest from `remote.Head` —
and nothing else is ever handed to `crane.Delete`. The tag of the input
reference is discarded: parsing the default reference keeps
"localhost:5000/mybusybox" as the repository and splits off "latest". -/
theorem c8_delete_targets_digest :
  (∀ (s : String) (env : DeleteEnv) (d : String), env.parseErr = none →
    env.headResult = Except.ok d → d ≠ "" →
    DAction.craneDelete ((parseTagRef s).contextName ++ "@" ++ d)
      ∈ (deleteMain s env).1 ∧
    (∀ r, DAction.craneDelete r ∈ (deleteMain s env).1 →
      r = (parseTagRef s).contextName ++ "@" ++ d)) ∧
  parseTagRef "localhost:5000/mybusybox:latest" =
    ⟨"localhost:5000/mybusybox", "latest"⟩ := by
  constructor
  · intro s env d hp hh hd
    constructor
    · cases hdel : env.deleteResult with
      | some e => simp [deleteMain, hp, hh, hd, hdel]
      | none => simp [deleteMain, hp, hh, hd, hdel]
    · intro r hr
      cases hdel : env.deleteResult with
      | some e => simp [deleteMain, hp, hh, hd, hdel] at hr; exact hr
      | none => simp [deleteMain, hp, hh, hd, hdel] at hr; exact hr
  · decide

/-- Witness for C8: with the default reference and digest sha256:abc the
script hands repository@digest to `crane.Delete`. -/
theorem c8_witness :
  DAction.craneDelete ((parseTagRef "localhost:5000/mybusybox:latest").contextName
      ++ "@" ++ "sha256:abc")
    ∈ (deleteMain "localhost:5000/mybusybox:latest"
        ⟨none, Except.ok "sha256:abc", Except.ok [], none, Except.ok []⟩).1 :=
  (c8_delete_targets_digest.1 "localhost:5000/mybusybox:latest"
    ⟨none, Except.ok "sha256:abc", Except.ok [], none, Except.ok []⟩
    "sha256:abc" rfl rfl (by decide)).1

/-- Claim C4. The pull script always passes a 10-minute (600-second)
context timeout to `crane.Pull`; the delete script resolves the digest under
a fixed 10-second context; the orchestration script passes its `-timeout`
flag value, with default 10 seconds, to the HTTP client of both the catalog
step and the HEAD digest-resolution step: every HEAD step in its trace
carries the flag timeout, and whenever the delete phase is reached the HEAD
step with that timeout is in the trace. -/
theorem c4_timeouts :
  (∀ b : Bool, CraneOpt.withContextTimeout (10 * 60) ∈ pullOpts b) ∧
  (∀ (s : String) (env : DeleteEnv) (t : Nat),
    DAction.remoteHead t ∈ (deleteMain s env).1 → t = 10) ∧
  (∀ (s : String) (env : DeleteEnv), env.parseErr = none →
    DAction.remoteHead 10 ∈ (deleteMain s env).1) ∧
  (∀ (f : Flags) (env : OrchEnv),
    (mainOrch f env).1.head? = some (Step.catalog f.timeoutSec)) ∧
  (∀ (f : Flags) (env : OrchEnv) (t : Nat),
    Step.resolveHead t ∈ (mainOrch f env).1 → t = f.timeoutSec) ∧
  (∀ (f : Flags) (env : OrchEnv) (c : catalogResponse),
    fetchCatalog env.catalogGet env.decodeCatalog = Except.ok c →
    f.doDelete = true → f.repo ≠ "" →
    Step.resolveHead f.timeoutSec ∈ (mainOrch f env).1) ∧
  defaultFlags.timeoutSec = 10 := by
  refine ⟨?_, ?_, ?_, ?_, ?_, ?_, rfl⟩
  · intro b; cases b <;> decide
  · intro s env t ht
    cases hp : env.parseErr with
    | some e => simp [deleteMain, hp] at ht
    | none =>
      cases hh : env.headResult with
      | error e => simp [deleteMain, hp, hh] at ht; omega
      | ok d =>
        by_cases hd : d = ""
        · simp [deleteMain, hp, hh, hd] at ht; omega
        · cases hdel : env.deleteResult with
          | some e => simp [deleteMain, hp, hh, hd, hdel] at ht; omega
          | none => simp [deleteMain, hp, hh, hd, hdel] at ht; omega
  · intro s env hp
    cases hh : env.headResult with
    | error e => simp [deleteMain, hp, hh]
    | ok d =>
      by_cases hd : d = ""
      · simp [deleteMain, hp, hh, hd]
      · cases hdel : env.deleteResult with
        | some e => simp [deleteMain, hp, hh, hd, hdel]
        | none => simp [deleteMain, hp, hh, hd, hdel]
  · intro f env
    cases hcat : fetchCatalog env.catalogGet env.decodeCatalog with
    | error e => simp [mainOrch, hcat]
    | ok c =>
      by_cases hdel : f.doDelete = false
      · simp [mainOrch, hcat, hdel]
      · by_cases hrepo : f.repo = ""
        · simp [mainOrch, hcat, hdel, hrepo]
        · simp [mainOrch, hcat, hdel, hrepo]
  · intro f env t ht
    cases hcat : fetchCatalog env.catalogGet env.decodeCatalog with
    | error e => simp [mainOrch, hcat] at ht
    | ok c =>
      by_cases hdel : f.doDelete = false
      · simp [mainOrch, hcat, hdel] at ht
        exact absurd ht (notMem_phase2_resolveHead _ _ _)
      · by_cases hrepo : f.repo = ""
        · simp [mainOrch, hcat, hdel, hrepo] at ht
          exact absurd ht (notMem_phase2_resolveHead _ _ _)
        · cases hre : (resolveDigestHTTP env.headResp).error with
          | some e =>
            simp [mainOrch, hcat, hdel, hrepo, deletePhase, hre] at ht
            rcases ht with ht | ht
            · exact absurd ht (notMem_phase2_resolveHead _ _ _)
            · exact ht
          | none =>
            cases hdc : env.deleteResult with
            | some e =>
              simp [mainOrch, hcat, hdel, hrepo, deletePhase, hre, hdc] at ht
              rcases ht with ht | ht
              · exact absurd ht (notMem_phase2_resolveHead _ _ _)
              · exact ht
            | none =>
              cases hgc : f.doGC with
              | false =>
                simp [mainOrch, hcat, hdel, hrepo, deletePhase, hre, hdc, hgc] at ht
                rcases ht with ht | ht
                · exact absurd ht (notMem_phase2_resolveHead _ _ _)
                · exact ht
              | true =>
                cases hgr : env.gcResult with
                | some e =>
                  simp [mainOrch, hcat, hdel, hrepo, deletePhase, hre, hdc,
                    hgc, hgr] at ht
                  rcases ht with ht | ht
                  · exact absurd ht (notMem_phase2_resolveHead _ _ _)
                  · exact ht
                | none =>
                  simp [mainOrch, hcat, hdel, hrepo, deletePhase, hre, hdc,
                    hgc, hgr] at ht
                  rcases ht with ht | ht
                  · exact absurd ht (notMem_phase2_resolveHead _ _ _)
                  · exact ht
  · intro f env c hcat hdel hrepo
    cases hre : (resolveDigestHTTP env.headResp).error with
    | some e => simp [mainOrch, hcat, hdel, hrepo, deletePhase, hre]
    | none =>
      cases hdc : env.deleteResult with
      | some e => simp [mainOrch, hcat, hdel, hrepo, deletePhase, hre, hdc]
      | none =>
        cases hgc : f.doGC with
        | false => simp [mainOrch, hcat, hdel, hrepo, deletePhase, hre, hdc, hgc]
        | true =>
          cases hgr : env.gcResult with
          | some e =>
            simp [mainOrch, hcat, hdel, hrepo, deletePhase, hre, hdc, hgc, hgr]
          | none =>
            simp [mainOrch, hcat, hdel, hrepo, deletePhase, hre, hdc, hgc, hgr]

/-- Witness for C4: a run of the delete script that reaches `remote.Head`
records the fixed 10-second timeout, and a `-delete` run of the
orchestration script records the default 10-second flag timeout on its HEAD
step. -/
theorem c4_witness :
  DAction.remoteHead 10 ∈ (deleteMain "localhost:5000/mybusybox:latest"
      ⟨none, Except.ok "sha256:abc", Except.ok [], none, Except.ok []⟩).1 ∧
  Step.resolveHead 10 ∈ (mainOrch
      ⟨"localhost:5000", "golang", "latest", true, false, "local-registry", 10⟩
      ⟨Except.ok ⟨200, [], "x"⟩, fun _ => Except.ok ⟨["golang"]⟩,
        fun _ => Except.ok (), fun _ => Except.ok ["latest"],
        Except.ok ⟨200, [("Docker-Content-Digest", "sha256:x")], ""⟩,
        none, none⟩).1 :=
  ⟨c4_timeouts.2.2.1 "localhost:5000/mybusybox:latest"
      ⟨none, Except.ok "sha256:abc", Except.ok [], none, Except.ok []⟩ rfl,
   c4_timeouts.2.2.2.2.2.1
      ⟨"localhost:5000", "golang", "latest", true, false, "local-registry", 10⟩
      ⟨Except.ok ⟨200, [], "x"⟩, fun _ => Except.ok ⟨["golang"]⟩,
        fun _ => Except.ok (), fun _ => Except.ok ["latest"],
        Except.ok ⟨200, [("Docker-Content-Digest", "sha256:x")], ""⟩,
        none, none⟩
      ⟨["golang"]⟩ rfl rfl (by decide)⟩

/-- Claim C3. The orchestration script is a fixed linear pipeline: the
catalog step comes first, the trace is the catalog step, then the
tag-listing steps, then a tail that is a prefix of HEAD resolution, manifest
delete, garbage-collect; HEAD resolution happens only with `-delete` set and
a repository given; the delete step happens only after a successful digest
resolution; the garbage-collect step happens only with `-gc` set and after a
successful delete; without `-delete` the script stops after tag listing with
a success outcome. -/
theorem c3_linear_order : ∀ (f : Flags) (env : OrchEnv),
  ((mainOrch f env).1.head? = some (Step.catalog f.timeoutSec)) ∧
  (∃ tail, (mainOrch f env).1 =
      Step.catalog f.timeoutSec :: (phase2Trace (orchRepos env) env ++ tail) ∧
    (tail = [] ∨ tail = [Step.resolveHead f.timeoutSec] ∨
     tail = [Step.resolveHead f.timeoutSec, Step.deleteManifest] ∨
     tail = [Step.resolveHead f.timeoutSec, Step.deleteManifest, Step.gc])) ∧
  (∀ t, Step.resolveHead t ∈ (mainOrch f env).1 → f.doDelete = true ∧ f.repo ≠ "") ∧
  (Step.deleteManifest ∈ (mainOrch f env).1 →
    f.doDelete = true ∧ (resolveDigestHTTP env.headResp).error = none) ∧
  (Step.gc ∈ (mainOrch f env).1 →
    f.doGC = true ∧ (resolveDigestHTTP env.headResp).error = none ∧
      env.deleteResult = none) ∧
  (f.doDelete = false → isErr (fetchCatalog env.catalogGet env.decodeCatalog) = false →
    (mainOrch f env).1 = Step.catalog f.timeoutSec :: phase2Trace (orchRepos env) env ∧
    (mainOrch f env).2 = Outcome.success) := by
  intro f env
  cases hcat : fetchCatalog env.catalogGet env.decodeCatalog with
  | error e =>
    have hrep : orchRepos env = [] := by simp [orchRepos, hcat]
    refine ⟨?_, ⟨[], ?_, Or.inl rfl⟩, ?_, ?_, ?_, ?_⟩
    · simp [mainOrch, hcat]
    · simp [mainOrch, hcat, hrep, phase2Trace]
    · intro t ht; simp [mainOrch, hcat] at ht
    · intro ht; simp [mainOrch, hcat] at ht
    · intro ht; simp [mainOrch, hcat] at ht
    · intro _ h2; simp [isErr] at h2
  | ok c =>
    have hrep : orchRepos env = c.repositories := by simp [orchRepos, hcat]
    by_cases hdel : f.doDelete = false
    · have hm : mainOrch f env =
        (Step.catalog f.timeoutSec :: phase2Trace c.repositories env,
          Outcome.success) := by simp [mainOrch, hcat, hdel]
      refine ⟨?_, ⟨[], ?_, Or.inl rfl⟩, ?_, ?_, ?_, ?_⟩
      · rw [hm]; rfl
      · rw [hm, hrep]; simp
      · intro t ht
        rw [hm] at ht; simp at ht
        exact absurd ht (notMem_phase2_resolveHead _ _ _)
      · intro ht
        rw [hm] at ht; simp at ht
        exact absurd ht (notMem_phase2_deleteManifest _ _)
      · intro ht
        rw [hm] at ht; simp at ht
        exact absurd ht (notMem_phase2_gc _ _)
      · intro _ _; rw [hm, hrep]; exact ⟨rfl, rfl⟩
    · have hdel2 : f.doDelete = true := by
        cases h : f.doDelete
        · exact absurd h hdel
        · rfl
      by_cases hrepo : f.repo = ""
      · have hm : mainOrch f env =
          (Step.catalog f.timeoutSec :: phase2Trace c.repositories env,
            Outcome.fatal "please provide -repo when using -delete") := by
          simp [mainOrch, hcat, hdel2, hrepo]
        refine ⟨?_, ⟨[], ?_, Or.inl rfl⟩, ?_, ?_, ?_, ?_⟩
        · rw [hm]; rfl
        · rw [hm, hrep]; simp
        · intro t ht
          rw [hm] at ht; simp at ht
          exact absurd ht (notMem_phase2_resolveHead _ _ _)
        · intro ht
          rw [hm] at ht; simp at ht
          exact absurd ht (notMem_phase2_deleteManifest _ _)
        · intro ht
          rw [hm] at ht; simp at ht
          exact absurd ht (notMem_phase2_gc _ _)
        · intro h _; rw [hdel2] at h; exact Bool.noConfusion h
      · cases hre : (resolveDigestHTTP env.headResp).error with
        | some e =>
          have hm : (mainOrch f env).1 =
              Step.catalog f.timeoutSec :: (phase2Trace c.repositories env
                ++ [Step.resolveHead f.timeoutSec]) := by
            simp [mainOrch, hcat, hdel2, hrepo, deletePhase, hre]
          refine ⟨?_, ⟨[Step.resolveHead f.timeoutSec], ?_, Or.inr (Or.inl rfl)⟩,
            ?_, ?_, ?_, ?_⟩
          · rw [hm]; rfl
          · rw [hm, hrep]
          · intro t _; exact ⟨hdel2, hrepo⟩
          · intro ht
            rw [hm] at ht; simp at ht
            exact absurd ht (notMem_phase2_deleteManifest _ _)
          · intro ht
            rw [hm] at ht; simp at ht
            exact absurd ht (notMem_phase2_gc _ _)
          · intro h _; rw [hdel2] at h; exact Bool.noConfusion h
        | none =>
          cases hdc : env.deleteResult with
          | some e =>
            have hm : (mainOrch f env).1 =
                Step.catalog f.timeoutSec :: (phase2Trace c.repositories env
                  ++ [Step.resolveHead f.timeoutSec, Step.deleteManifest]) := by
              simp [mainOrch, hcat, hdel2, hrepo, deletePhase, hre, hdc]
            refine ⟨?_, ⟨[Step.resolveHead f.timeoutSec, Step.deleteManifest], ?_,
              Or.inr (Or.inr (Or.inl rfl))⟩, ?_, ?_, ?_, ?_⟩
            · rw [hm]; rfl
            · rw [hm, hrep]
            · intro t _; exact ⟨hdel2, hrepo⟩
            · intro _; exact ⟨hdel2, rfl⟩
            · intro ht
              rw [hm] at ht; simp at ht
              exact absurd ht (notMem_phase2_gc _ _)
            · intro h _; rw [hdel2] at h; exact Bool.noConfusion h
          | none =>
            cases hgc : f.doGC with
            | false =>
              have hm : (mainOrch f env).1 =
                  Step.catalog f.timeoutSec :: (phase2Trace c.repositories env
                    ++ [Step.resolveHead f.timeoutSec, Step.deleteManifest]) := by
                simp [mainOrch, hcat, hdel2, hrepo, deletePhase, hre, hdc, hgc]
              refine ⟨?_, ⟨[Step.resolveHead f.timeoutSec, Step.deleteManifest], ?_,
                Or.inr (Or.inr (Or.inl rfl))⟩, ?_, ?_, ?_, ?_⟩
              · rw [hm]; rfl
              · rw [hm, hrep]
              · intro t _; exact ⟨hdel2, hrepo⟩
              · intro _; exact ⟨hdel2, rfl⟩
              · intro ht
                rw [hm] at ht; simp at ht
                exact absurd ht (notMem_phase2_gc _ _)
              · intro h _; rw [hdel2] at h; exact Bool.noConfusion h
            | true =>
              have hm : (mainOrch f env).1 =
                  Step.catalog f.timeoutSec :: (phase2Trace c.repositories env
                    ++ [Step.resolveHead f.timeoutSec, Step.deleteManifest,
                        Step.gc]) := by
                cases hgr : env.gcResult with
                | some e =>
                  simp [mainOrch, hcat, hdel2, hrepo, deletePhase, hre, hdc, hgc, hgr]
                | none =>
                  simp [mainOrch, hcat, hdel2, hrepo, deletePhase, hre, hdc, hgc, hgr]
              refine ⟨?_, ⟨[Step.resolveHead f.timeoutSec, Step.deleteManifest,
                Step.gc], ?_, Or.inr (Or.inr (Or.inr rfl))⟩, ?_, ?_, ?_, ?_⟩
              · rw [hm]; rfl
              · rw [hm, hrep]
              · intro t _; exact ⟨hdel2, hrepo⟩
              · intro _; exact ⟨hdel2, rfl⟩
              · intro _; exact ⟨rfl, rfl, rfl⟩
              · intro h _; rw [hdel2] at h; exact Bool.noConfusion h

/-- A fully successful environment for the orchestration script. -/
def okCatalogEnv : OrchEnv :=
  ⟨Except.ok ⟨200, [], "x"⟩, fun _ => Except.ok ⟨["golang"]⟩,
   fun _ => Except.ok (), fun _ => Except.ok ["latest"],
   Except.ok ⟨200, [("Docker-Content-Digest", "sha256:x")], ""⟩, none, none⟩

/-- Witness for C3: with default flags (no `-delete`) the script stops after
tag listing with a success outcome. -/
theorem c3_witness :
  (mainOrch defaultFlags okCatalogEnv).1 =
    Step.catalog 10 :: phase2Trace (orchRepos okCatalogEnv) okCatalogEnv ∧
  (mainOrch defaultFlags okCatalogEnv).2 = Outcome.success :=
  (c3_linear_order defaultFlags okCatalogEnv).2.2.2.2.2 rfl (by decide)

/-- Claim C7. Exit behavior of every script: the outcome is a success
exactly when no unrecoverable error occurred — for the orchestration script:
catalog fetch failure, or with `-delete` set a missing `-repo`, a failed
digest resolution, a failed delete, or with `-gc` also set a failed
garbage-collect; for the delete script: reference-parse failure, failed
HEAD, empty digest, or failed delete; for the pull script: missing `--repo`,
failed folder creation, failed pull, or failed save. Every other run exits 0
with informational logging only. -/
theorem c7_exit_behavior :
  (∀ (f : Flags) (env : OrchEnv),
    (mainOrch f env).2 = Outcome.success ↔
      ¬(isErr (fetchCatalog env.catalogGet env.decodeCatalog) = true ∨
        (f.doDelete = true ∧ (f.repo = "" ∨
          (resolveDigestHTTP env.headResp).error ≠ none ∨
          env.deleteResult ≠ none ∨
          (f.doGC = true ∧ env.gcResult ≠ none))))) ∧
  (∀ (s : String) (env : DeleteEnv),
    (deleteMain s env).2 = Outcome.success ↔
      ¬(env.parseErr ≠ none ∨ isErr env.headResult = true ∨
        env.headResult = Except.ok "" ∨ env.deleteResult ≠ none)) ∧
  (∀ (f : PullFlags) (env : PullEnv),
    (pullSaveMain f env).2 = Outcome.success ↔
      ¬(f.repo = "" ∨ (f.out = "" ∧ env.mkdirErr ≠ none) ∨
        env.pullErr ≠ none ∨ env.saveErr ≠ none)) := by
  refine ⟨?_, ?_, ?_⟩
  · intro f env
    cases hcat : fetchCatalog env.catalogGet env.decodeCatalog with
    | error e => simp [mainOrch, hcat, isErr]
    | ok c =>
      by_cases hdel : f.doDelete = false
      · simp [mainOrch, hcat, isErr, hdel]
      · have hdel2 : f.doDelete = true := by
          cases h : f.doDelete
          · exact absurd h hdel
          · rfl
        by_cases hrepo : f.repo = ""
        · simp [mainOrch, hcat, isErr, hdel2, hrepo]
        · cases hre : (resolveDigestHTTP env.headResp).error with
          | some e =>
            simp [mainOrch, hcat, isErr, hdel2, hrepo, deletePhase, hre]
          | none =>
            cases hdc : env.deleteResult with
            | some e =>
              simp [mainOrch, hcat, isErr, hdel2, hrepo, deletePhase, hre, hdc]
            | none =>
              cases hgc : f.doGC with
              | false =>
                simp [mainOrch, hcat, isErr, hdel2, hrepo, deletePhase, hre, hdc, hgc]
              | true =>
                cases hgr : env.gcResult with
                | some e =>
                  simp [mainOrch, hcat, isErr, hdel2, hrepo, deletePhase, hre, hdc,
                    hgc, hgr]
                | none =>
                  simp [mainOrch, hcat, isErr, hdel2, hrepo, deletePhase, hre, hdc,
                    hgc, hgr]
  · intro s env
    cases hp : env.parseErr with
    | some e => simp [deleteMain, hp]
    | none =>
      cases hh : env.headResult with
      | error e => simp [deleteMain, hp, hh, isErr]
      | ok d =>
        by_cases hd : d = ""
        · subst hd; simp [deleteMain, hp, hh, isErr]
        · cases hdc : env.deleteResult with
          | some e => simp [deleteMain, hp, hh, hd, hdc, isErr]
          | none => simp [deleteMain, hp, hh, hd, hdc, isErr]
  · intro f env
    by_cases hr : f.repo = ""
    · simp [pullSaveMain, hr]
    · by_cases ho : f.out = ""
      · cases hmk : env.mkdirErr with
        | some e => simp [pullSaveMain, hr, ho, hmk]
        | none =>
          cases hpl : env.pullErr with
          | some e => simp [pullSaveMain, pullSavePhase, hr, ho, hmk, hpl]
          | none =>
            cases hsv : env.saveErr with
            | some e => simp [pullSaveMain, pullSavePhase, hr, ho, hmk, hpl, hsv]
            | none => simp [pullSaveMain, pullSavePhase, hr, ho, hmk, hpl, hsv]
      · cases hpl : env.pullErr with
        | some e => simp [pullSaveMain, pullSavePhase, hr, ho, hpl]
        | none =>
          cases hsv : env.saveErr with
          | some e => simp [pullSaveMain, pullSavePhase, hr, ho, hpl, hsv]
          | none => simp [pullSaveMain, pullSavePhase, hr, ho, hpl, hsv]

/-- Witness for C7: fully successful runs of the orchestration script and of
the pull script exit 0. -/
theorem c7_witness :
  (mainOrch defaultFlags okCatalogEnv).2 = Outcome.success ∧
  (pullSaveMain ⟨"localhost:5000", "golang", "latest", "", true⟩
      ⟨none, none, none⟩).2 = Outcome.success :=
  ⟨(c7_exit_behavior.1 defaultFlags okCatalogEnv).mpr (by decide),
   (c7_exit_behavior.2.2 ⟨"localhost:5000", "golang", "latest", "", true⟩
      ⟨none, none, none⟩).mpr (by decide)⟩

/-- Counterexample to claim C6 as stated. The claim says the default
output path is `downloaded-images/REPO_TAG.tar`. The code applies
`filepath.Base` to the repository first: for the repository
"library/golang" with tag "latest" the successful run saves and logs
`downloaded-images/golang_latest.tar`, not
`downloaded-images/library/golang_latest.tar`. -/
theorem c6_counterexample :
  (pullSaveMain ⟨"localhost:5000", "library/golang", "latest", "", true⟩
      ⟨none, none, none⟩).2 = Outcome.success ∧
  PAction.logSaved "downloaded-images/golang_latest.tar"
    ∈ (pullSaveMain ⟨"localhost:5000", "library/golang", "latest", "", true⟩
        ⟨none, none, none⟩).1 ∧
  PAction.craneSave "localhost:5000/library/golang:latest"
      "downloaded-images/golang_latest.tar"
    ∈ (pullSaveMain ⟨"localhost:5000", "library/golang", "latest", "", true⟩
        ⟨none, none, none⟩).1 ∧
  PAction.logSaved "downloaded-images/library/golang_latest.tar"
    ∉ (pullSaveMain ⟨"localhost:5000", "library/golang", "latest", "", true⟩
        ⟨none, none, none⟩).1 ∧
  PAction.craneSave "localhost:5000/library/golang:latest"
      "downloaded-images/library/golang_latest.tar"
    ∉ (pullSaveMain ⟨"localhost:5000", "library/golang", "latest", "", true⟩
        ⟨none, none, none⟩).1 := by
  refine ⟨by decide, by decide, by decide, by decide, by decide⟩

/-- Claim C6 (amended). For every successful pull-and-save run the tarball
is saved at the expected path — the `--out` value when given, otherwise
`downloaded-images/BASE_TAG.tar` where BASE is the final path element of
the repository (`filepath.Base`), with the `downloaded-images` folder
created — and the script logs that path on success. -/
theorem c6_saved_path :
  ∀ (f : PullFlags) (env : PullEnv),
    (pullSaveMain f env).2 = Outcome.success →
    (f.out ≠ "" →
      PAction.craneSave (f.registry ++ "/" ++ f.repo ++ ":" ++ f.tag) f.out
        ∈ (pullSaveMain f env).1 ∧
      PAction.logSaved f.out ∈ (pullSaveMain f env).1) ∧
    (f.out = "" →
      PAction.mkdirAll "downloaded-images" ∈ (pullSaveMain f env).1 ∧
      PAction.craneSave (f.registry ++ "/" ++ f.repo ++ ":" ++ f.tag)
          (defaultOut f.repo f.tag) ∈ (pullSaveMain f env).1 ∧
      PAction.logSaved (defaultOut f.repo f.tag) ∈ (pullSaveMain f env).1) := by
  intro f env hsucc
  by_cases hr : f.repo = ""
  · exact absurd hsucc (by simp [pullSaveMain, hr])
  · by_cases ho : f.out = ""
    · cases hmk : env.mkdirErr with
      | some e => exact absurd hsucc (by simp [pullSaveMain, hr, ho, hmk])
      | none =>
        cases hpl : env.pullErr with
        | some e =>
          exact absurd hsucc (by simp [pullSaveMain, pullSavePhase, hr, ho, hmk, hpl])
        | none =>
          cases hsv : env.saveErr with
          | some e =>
            exact absurd hsucc
              (by simp [pullSaveMain, pullSavePhase, hr, ho, hmk, hpl, hsv])
          | none =>
            constructor
            · intro h; exact absurd ho h
            · intro _
              refine ⟨?_, ?_, ?_⟩ <;>
                simp [pullSaveMain, pullSavePhase, hr, ho, hmk, hpl, hsv]
    · cases hpl : env.pullErr with
      | some e =>
        exact absurd hsucc (by simp [pullSaveMain, pullSavePhase, hr, ho, hpl])
      | none =>
        cases hsv : env.saveErr with
        | some e =>
          exact absurd hsucc
            (by simp [pullSaveMain, pullSavePhase, hr, ho, hpl, hsv])
        | none =>
          constructor
          · intro _
            constructor <;> simp [pullSaveMain, pullSavePhase, hr, ho, hpl, hsv]
          · intro h; exact absurd h ho

/-- Witness for the amended C6: the documented example run saves to
`downloaded-images/golang_1.21-alpine.tar`. -/
theorem c6_witness :
  PAction.mkdirAll "downloaded-images"
    ∈ (pullSaveMain ⟨"localhost:5000", "golang", "1.21-alpine", "", true⟩
        ⟨none, none, none⟩).1 ∧
  PAction.logSaved (defaultOut "golang" "1.21-alpine")
    ∈ (pullSaveMain ⟨"localhost:5000", "golang", "1.21-alpine", "", true⟩
        ⟨none, none, none⟩).1 :=
  have h := (c6_saved_path ⟨"localhost:5000", "golang", "1.21-alpine", "", true⟩
    ⟨none, none, none⟩ (by decide)).2 rfl
  ⟨h.1, h.2.2⟩
